import Mathlib

/-!
# PestVid Funding Request & Investment Ledger — verification development

Shallow embedding of the funding/investment core of the PestVid backend:

* `src/backend/models/FundingRequest.js` — the FundingRequest schema and its
  `pre('save')` hook (clamp of `fundedAmount`, recomputation of `status`);
* `src/unnamed/part_003` — the Investment model (with its denormalising
  `pre('save')` hook) and the Transaction model (`txHash` carries a unique
  index);
* `src/unnamed/part_010` — the investments routes: `POST /api/investments`
  (Invest) and `PUT /api/investments/:id/progress` (UpdateProgress);
* `src/backend/routes/fundingRequests.js` — `POST /` (Create),
  `PUT /:id` (farmer update / status change) and `DELETE /:id` (Cancel).

Modelling conventions:
* JS `Number` amounts are modelled as `ℚ` (exact arithmetic; none of the
  verified properties concerns floating-point rounding).
* MongoDB documents live in association lists `List (Nat × _)` keyed by a
  generated id; `findByIdAndUpdate` / `find` / `save` become list operations.
* `generateSimulatedTxHash` ("a unique-enough string for demo purposes") is
  modelled as an injective nonce supply `World.nextTx`; `Date.now()` is the
  `World.clock` field, in milliseconds.
* Mongoose `pre('save')` hooks run on `Document.save()` only — NOT on
  `findByIdAndUpdate`; the embedding mirrors this: `invest` updates the
  funding request without running `frPreSave`, while every `save()` call
  site goes through `saveFR`.
* String enum fields (`status`, `type`, `method`, roles) are modelled as
  closed inductive types; route code rejecting out-of-enum strings with 400
  is absorbed into the types.
-/

namespace PestVid

/-- Status enum of `fundingRequestSchema.status`. -/
inductive FRStatus
  | pending
  | partially_funded
  | funded
  | completed
  | cancelled
deriving DecidableEq, Repr

/-- Status enum of `investmentSchema.status`. -/
inductive InvStatus
  | active
  | growing
  | harvested
  | cancelled
deriving DecidableEq, Repr

/-- Enum of `transactionSchema.type`. -/
inductive TxType
  | investment
  | payout
  | purchase
  | sale
deriving DecidableEq, Repr

/-- User roles relevant to the routes (`req.user.role`). -/
inductive Role
  | farmer
  | investor
  | admin
  | buyer
deriving DecidableEq, Repr

/-- Growing-method enum of `fundingRequestSchema.method`. -/
inductive GrowMethod
  | organic
  | conventional
  | hydroponic
  | aquaponic
  | regenerative
deriving DecidableEq, Repr

/-- The notification site that produced a Notification document; stands for
the interpolated `message` template used at each creation site. -/
inductive NotifKind
  | newOpportunity      -- POST /api/funding-requests: global marketplace notice
  | newInvestment       -- POST /api/investments: notify the farmer
  | payoutToInvestor    -- PUT /:id/progress: payout received
  | payoutProcessed     -- PUT /:id/progress: notify the farmer
  | projectUpdate       -- update posted, fan-out to investors
  | projectCompleted    -- all investments harvested
deriving DecidableEq, Repr

/-- One element of the embedded `investors` array of a FundingRequest. -/
structure Contribution where
  investorId : Nat
  amount : ℚ
  txHash : Nat
  investmentDate : Nat
deriving DecidableEq, Repr

/-- One element of the embedded `updates` array of a FundingRequest.
The source stores a locale date string; we keep the clock value. -/
structure FRUpdate where
  date : Nat
  text : String
deriving DecidableEq, Repr

/-- The FundingRequest document (`src/backend/models/FundingRequest.js`).
The video-metadata fields `videoStorageType`/`videoFileHash` are carried by
the schema but never read by the funding logic, so they are not modelled. -/
structure FundingRequest where
  farmerWallet : Nat
  title : String
  crop : String
  acres : ℚ
  /-- Total funding amount requested (`amount` in the schema). -/
  amount : ℚ
  timeline : Int
  roi : ℚ
  investorShare : ℚ
  cid : String
  fundedAmount : ℚ
  status : FRStatus
  investors : List Contribution
  updates : List FRUpdate
deriving DecidableEq, Repr

/-- The Investment document (`src/unnamed/part_003`), with the denormalised
project snapshot fields the progress route reads (`roi`, `farmerWallet`,
`projectTitle`, `investorShare`). -/
structure Investment where
  investorWallet : Nat
  projectId : Nat
  amount : ℚ
  projectTitle : String
  farmerWallet : Nat
  roi : ℚ
  investorShare : ℚ
  status : InvStatus
  progress : Int
  investmentDate : Nat
  txHash : Nat
  payoutAmount : Option ℚ
  payoutDate : Option Nat
  payoutTxHash : Option Nat
  payoutNotified : Bool
deriving DecidableEq, Repr

/-- The Transaction document (`src/unnamed/part_003`); `txHash` has a unique
index (`unique: true`). -/
structure Transaction where
  userId : Nat
  txHash : Nat
  type : TxType
  amount : ℚ
  projectId : Option Nat
  date : Nat
deriving DecidableEq, Repr

/-- A Notification document; `recipient = none` models a global notification. -/
structure Notification where
  recipient : Option Nat
  kind : NotifKind
  itemId : Nat
deriving DecidableEq, Repr

/-- A Video document, reduced to the fields the funding routes consult. -/
structure VideoDoc where
  cid : String
  farmerWallet : Nat
deriving DecidableEq, Repr

/-- The persistent store plus the ambient id/nonce/clock state. -/
structure World where
  videos : List VideoDoc
  frs : List (Nat × FundingRequest)
  invs : List (Nat × Investment)
  txs : List Transaction
  notifs : List Notification
  /-- Generator for fresh document ids. -/
  nextId : Nat
  /-- Generator for fresh simulated transaction hashes. -/
  nextTx : Nat
  /-- `Date.now()` in milliseconds. -/
  clock : Nat
deriving DecidableEq, Repr

/-- HTTP outcome of a route call. -/
inductive Outcome
  | created (id : Nat)
  | ok
  | badRequest (msg : String)
  | forbidden (msg : String)
  | notFound (msg : String)
  | conflict (msg : String)
  | serverError (msg : String)
deriving DecidableEq, Repr

/-- `Model.findById`. -/
def findDoc {α : Type} (l : List (Nat × α)) (id : Nat) : Option α :=
  (l.find? (fun p => p.1 == id)).map Prod.snd

/-- Overwrite the document stored under `id` (the effect of saving an
already-persisted document back). -/
def setDoc {α : Type} (l : List (Nat × α)) (id : Nat) (v : α) : List (Nat × α) :=
  l.map (fun p => if p.1 == id then (id, v) else p)

/-- Sum of the embedded contribution amounts of a funding request. -/
def sumContribs (l : List Contribution) : ℚ :=
  (l.map Contribution.amount).sum

/-- The monetary tail of `fundingRequestSchema.pre('save')` (lines 195-212):
clamp `fundedAmount` to `amount`, then recompute `status` from
`fundedAmount` alone.  This part runs on EVERY save of a FundingRequest
document (the video-population head of the hook only touches the unmodelled
video-metadata fields of new documents). -/
def frPreSave (d : FundingRequest) : FundingRequest :=
  let d := if d.amount < d.fundedAmount then { d with fundedAmount := d.amount } else d
  if d.amount ≤ d.fundedAmount then { d with status := FRStatus.funded }
  else if 0 < d.fundedAmount then { d with status := FRStatus.partially_funded }
  else { d with status := FRStatus.pending }

/-- `document.save()` for a FundingRequest: run the pre-save hook, then
persist. -/
def saveFR (w : World) (id : Nat) (d : FundingRequest) : World :=
  { w with frs := setDoc w.frs id (frPreSave d) }

/-- The denormalising `investmentSchema.pre('save')` hook: on a new document
it copies the project snapshot fields from the linked FundingRequest; on an
existing document it does nothing. -/
def investmentPreSave (w : World) (inv : Investment) (isNew : Bool) : Investment :=
  if isNew then
    match findDoc w.frs inv.projectId with
    | some p =>
        { inv with
            projectTitle := p.title
            farmerWallet := p.farmerWallet
            roi := p.roi
            investorShare := p.investorShare }
    | none => inv
  else inv

/-- The predicate of the embedded-entry lookup in `POST /api/investments`
(line 186): match by investor, amount, and a sub-5-second timestamp window. -/
def matchesEntry (caller : Nat) (a : ℚ) (now : Nat) (c : Contribution) : Bool :=
  c.investorId == caller && decide (c.amount = a) && decide (now - c.investmentDate < 5000)

/-- `POST /api/investments` (src/unnamed/part_010, lines 113-303).

1. 403 unless the caller's role is `investor`;
2. 400 on a missing/non-numeric (`none`) or non-positive amount;
3. `findByIdAndUpdate` on the FundingRequest with `$inc fundedAmount` and
   `$push investors` — 404 when the project is missing; note that NO
   pre-save hook runs here, and there is no overfunding or status check;
4. re-find the pushed investor entry by (investor, amount, <5s window) —
   `Array.find` returns the FIRST match; 500 if none (the funding-request
   mutation persists);
5. save the Investment document (its pre-save hook denormalises the project
   snapshot) with the txHash of the entry found in step 4;
6. save the Transaction; its `txHash` unique index makes a duplicate hash a
   500 (the earlier mutations persist);
7. notify the farmer; 201 with the new record id. -/
def invest (w : World) (caller : Nat) (role : Role) (projectId : Nat)
    (amount? : Option ℚ) : World × Outcome :=
  if role ≠ Role.investor then (w, Outcome.forbidden "only investors can invest")
  else
    match amount? with
    | none => (w, Outcome.badRequest "invalid amount")
    | some a =>
      if a ≤ 0 then (w, Outcome.badRequest "invalid amount")
      else
        match findDoc w.frs projectId with
        | none => (w, Outcome.notFound "funding request not found")
        | some fr =>
          let entry : Contribution :=
            { investorId := caller, amount := a, txHash := w.nextTx,
              investmentDate := w.clock }
          let frUpdated :=
            { fr with
                fundedAmount := fr.fundedAmount + a
                investors := fr.investors ++ [entry] }
          let w1 := { w with frs := setDoc w.frs projectId frUpdated,
                             nextTx := w.nextTx + 1 }
          match frUpdated.investors.find? (matchesEntry caller a w1.clock) with
          | none => (w1, Outcome.serverError "could not find pushed investor entry")
          | some e =>
            let inv0 : Investment :=
              { investorWallet := caller, projectId := projectId, amount := a,
                projectTitle := "", farmerWallet := 0, roi := 0, investorShare := 0,
                status := InvStatus.active, progress := 0,
                investmentDate := e.investmentDate, txHash := e.txHash,
                payoutAmount := none, payoutDate := none, payoutTxHash := none,
                payoutNotified := false }
            let inv1 := investmentPreSave w1 inv0 true
            let invId := w1.nextId
            let w2 := { w1 with invs := w1.invs ++ [(invId, inv1)],
                                nextId := w1.nextId + 1 }
            if w2.txs.any (fun t => t.txHash == e.txHash) then
              (w2, Outcome.serverError "duplicate transaction hash")
            else
              let tx : Transaction :=
                { userId := caller, txHash := inv1.txHash, type := TxType.investment,
                  amount := inv1.amount, projectId := some projectId,
                  date := inv1.investmentDate }
              let w3 := { w2 with txs := w2.txs ++ [tx] }
              let w4 :=
                { w3 with
                    notifs := w3.notifs ++
                      [{ recipient := some frUpdated.farmerWallet,
                         kind := NotifKind.newInvestment, itemId := projectId }] }
              (w4, Outcome.created invId)

/-- The "all investments harvested?" post-save check of
`PUT /api/investments/:id/progress` (part_010, lines 495-530): count the
project's Investment documents and the harvested ones; when they agree (and
are nonzero), load the FundingRequest, set its status to `completed` and
SAVE it — the save runs `frPreSave`, — then notify the farmer. -/
def checkProjectCompletion (w : World) (projectId : Nat) : World :=
  let total := (w.invs.filter (fun p => p.2.projectId == projectId)).length
  let harvested :=
    (w.invs.filter
      (fun p => p.2.projectId == projectId && decide (p.2.status = InvStatus.harvested))).length
  if 0 < total ∧ total = harvested then
    match findDoc w.frs projectId with
    | some fr =>
      if fr.status ≠ FRStatus.completed then
        let w1 := saveFR w projectId { fr with status := FRStatus.completed }
        { w1 with
            notifs := w1.notifs ++
              [{ recipient := some fr.farmerWallet,
                 kind := NotifKind.projectCompleted, itemId := projectId }] }
      else w
    | none => w
  else w

/-- The optional-note branch of `PUT /api/investments/:id/progress`
(part_010, lines 449-489): load the FundingRequest, push the update, SAVE
it (running `frPreSave`), then notify every distinct investor holding an
Investment against the project. When the project is missing, only a warning
is logged. -/
def appendProjectUpdateAndNotify (w : World) (projectId : Nat) (text : String) : World :=
  match findDoc w.frs projectId with
  | some fr =>
    let fr1 := { fr with updates := fr.updates ++ [{ date := w.clock, text := text }] }
    let w1 := saveFR w projectId fr1
    let investorIds :=
      ((w1.invs.filter (fun p => p.2.projectId == projectId)).map
        (fun p => p.2.investorWallet)).dedup
    { w1 with
        notifs := w1.notifs ++
          investorIds.map (fun i =>
            { recipient := some i, kind := NotifKind.projectUpdate, itemId := projectId }) }
  | none => w

/-- The status-transition / payout step of the progress route (part_010,
lines 360-446), applied to the record after `progress` has been assigned.
Returns the mutated in-memory record, the store after any payout side
effects, and the `payoutTriggered` flag.  On the harvest transition, guarded
by `payoutNotified`, it computes `payoutAmount = amount * (roi / 100)`,
saves the payout Transaction, notifies investor and farmer, then sets
`payoutNotified`.  The `progress = 0` branch of the source is kept; its
inner condition can never fire, so it is the identity. -/
def progressStep (w : World) (invId : Nat) (inv1 : Investment) :
    Investment × World × Bool :=
  if 100 ≤ inv1.progress ∧ inv1.status ≠ InvStatus.harvested then
    let invH := { inv1 with status := InvStatus.harvested }
    if invH.payoutNotified = false then
      let payoutAmt := invH.amount * (invH.roi / 100)
      let ptx := w.nextTx
      let invP :=
        { invH with
            payoutAmount := some payoutAmt
            payoutDate := some w.clock
            payoutTxHash := some ptx
            payoutNotified := true }
      let w1 :=
        { w with
            nextTx := w.nextTx + 1
            txs := w.txs ++
              [{ userId := invH.investorWallet, txHash := ptx,
                 type := TxType.payout, amount := payoutAmt,
                 projectId := some invH.projectId, date := w.clock }]
            notifs := w.notifs ++
              [{ recipient := some invH.investorWallet,
                 kind := NotifKind.payoutToInvestor, itemId := invId },
               { recipient := some invH.farmerWallet,
                 kind := NotifKind.payoutProcessed, itemId := invId }] }
      (invP, w1, true)
    else (invH, w, false)
  else if 0 < inv1.progress ∧ inv1.status = InvStatus.active then
    ({ inv1 with status := InvStatus.growing }, w, false)
  else if inv1.progress = 0 ∧ inv1.status ≠ InvStatus.active ∧
      inv1.status ≠ InvStatus.harvested ∧ inv1.status ≠ InvStatus.cancelled then
    (if inv1.status ≠ InvStatus.growing then { inv1 with status := InvStatus.active }
     else inv1, w, false)
  else (inv1, w, false)

/-- `PUT /api/investments/:id/progress` (part_010, lines 306-591).

`progress? = none` models a missing or non-numeric `progress` body field
(`parseInt` gives `NaN`).  The non-admin caller only triggers a logged
warning in the source, so the caller is not a parameter.  Steps:

1. 400 when `progress` is `NaN` or outside `[0, 100]`;
2. 404 when the Investment is missing;
3. 400 when the record is terminal — `harvested` or `cancelled` — unless
   the record is `harvested` and the submitted progress is exactly 100;
4. set `progress`; on crossing into `progress ≥ 100` from a non-harvested
   status, set `harvested` and, guarded by `payoutNotified`, compute
   `payoutAmount = amount * roi / 100`, save the payout Transaction, notify
   investor and farmer, and set `payoutNotified := true`; otherwise
   `active → growing` once progress is positive (the `progress = 0` branch
   of the source is dead code and reduces to the identity);
5. when a non-empty `updateText` is present, route it to the FundingRequest
   (`appendProjectUpdateAndNotify`);
6. save the Investment (the pre-save hook is the identity on existing
   documents);
7. when a payout was triggered, run the project-completion check. -/
def updateProgress (w : World) (invId : Nat) (progress? : Option Int)
    (updateText : Option String) : World × Outcome :=
  match progress? with
  | none => (w, Outcome.badRequest "invalid progress value")
  | some p =>
    if p < 0 ∨ 100 < p then (w, Outcome.badRequest "invalid progress value")
    else
      match findDoc w.invs invId with
      | none => (w, Outcome.notFound "investment not found")
      | some inv =>
        if (inv.status = InvStatus.harvested ∨ inv.status = InvStatus.cancelled) ∧
            (p < 100 ∨ inv.status = InvStatus.cancelled) then
          (w, Outcome.badRequest "terminal state")
        else
          let inv1 := { inv with progress := p }
          let step := progressStep w invId inv1
          let inv2 := step.1
          let wA := step.2.1
          let payoutTriggered := step.2.2
          let wB :=
            match updateText with
            | some t => if t ≠ "" then appendProjectUpdateAndNotify wA inv2.projectId t else wA
            | none => wA
          let wC := { wB with invs := setDoc wB.invs invId inv2 }
          let wD :=
            if payoutTriggered = true ∧ inv2.status = InvStatus.harvested then
              checkProjectCompletion wC inv2.projectId
            else wC
          (wD, Outcome.ok)

/-- `PUT /api/funding-requests/:id` (fundingRequests.js, lines 395-522):
farmer-authored update and/or status change.

`newStatus = none` models an absent `status` body field; strings outside
the status enum are rejected with 400 by the route and are absorbed into
the `FRStatus` type.  Faithful quirks kept from the source: the
investor-notification fan-out for `updateText` runs BEFORE the
terminal-status guard can reject the call, and the final `save()` runs
`frPreSave`, which recomputes `status` from `fundedAmount` — even when the
route just assigned a terminal status. -/
def putFundingRequest (w : World) (caller : Nat) (reqId : Nat)
    (updateText : Option String) (newStatus : Option FRStatus) : World × Outcome :=
  let hasText : Bool := match updateText with | some t => t ≠ "" | none => false
  if hasText = false ∧ newStatus = none then
    (w, Outcome.badRequest "no update data")
  else
    match findDoc w.frs reqId with
    | none => (w, Outcome.notFound "funding request not found")
    | some fr =>
      if fr.farmerWallet ≠ caller then (w, Outcome.forbidden "not the owner")
      else
        let fr1 :=
          if hasText then
            { fr with updates := fr.updates ++
                [{ date := w.clock, text := (updateText.getD "") }] }
          else fr
        let w1 :=
          if hasText then
            let investorIds :=
              ((w.invs.filter (fun p => p.2.projectId == reqId)).map
                (fun p => p.2.investorWallet)).dedup
            { w with
                notifs := w.notifs ++
                  investorIds.map (fun i =>
                    { recipient := some i, kind := NotifKind.projectUpdate,
                      itemId := reqId }) }
          else w
        match newStatus with
        | some st =>
          if (fr.status = FRStatus.cancelled ∨ fr.status = FRStatus.completed) ∧
              st ≠ fr.status then
            (w1, Outcome.badRequest "cannot change status from terminal state")
          else
            (saveFR w1 reqId { fr1 with status := st }, Outcome.ok)
        | none => (saveFR w1 reqId fr1, Outcome.ok)

/-- `DELETE /api/funding-requests/:id` (fundingRequests.js, lines 525-579):
cancel by deleting the document; forbidden unless the caller owns it, and
rejected once any funding has been received. -/
def deleteFundingRequest (w : World) (caller : Nat) (reqId : Nat) : World × Outcome :=
  match findDoc w.frs reqId with
  | none => (w, Outcome.notFound "funding request not found")
  | some fr =>
    if fr.farmerWallet ≠ caller then (w, Outcome.forbidden "not the owner")
    else if 0 < fr.fundedAmount then
      (w, Outcome.badRequest "already received funding")
    else
      ({ w with frs := w.frs.filter (fun p => p.1 != reqId) }, Outcome.ok)

/-- Terms of `POST /api/funding-requests`; required-field and enum checks of
the route are absorbed into the types. -/
structure CreateTerms where
  title : String
  crop : String
  description : String
  acres : ℚ
  amount : ℚ
  method : GrowMethod
  cid : String
  timeline : Int
  roi : ℚ
  investorShare : ℚ
deriving DecidableEq, Repr

/-- The mongoose schema validators that run when a NEW FundingRequest
document is saved (FundingRequest.js, field `min`/`max` bounds). -/
def schemaValidFR (d : FundingRequest) : Prop :=
  1 ≤ d.amount ∧ (1 : ℚ)/10 ≤ d.acres ∧ 1 ≤ d.timeline ∧ d.timeline ≤ 36 ∧
    0 ≤ d.roi ∧ d.roi ≤ 100 ∧ 0 ≤ d.investorShare ∧ d.investorShare ≤ 100 ∧
    0 ≤ d.fundedAmount

instance (d : FundingRequest) : Decidable (schemaValidFR d) := by
  unfold schemaValidFR; infer_instance

/-- `POST /api/funding-requests` (fundingRequests.js, lines 265-393):

1. 403 unless the caller's role is `farmer`;
2. 400 on out-of-range numeric terms;
3. 404 unless the referenced video exists and belongs to the caller;
4. 409 when another request uses the same cid with status in the source's
   list `['pending','partially_funded','funded','growing']` — the entry
   `'growing'` is not a FundingRequest status value and can never match, so
   only the three real statuses appear in the test;
5. build the document (`fundedAmount = 0`, `status = 'pending'`, empty
   embedded arrays) and save it: schema validators, then the pre-save hook;
6. global marketplace notification; 201. -/
def createFundingRequest (w : World) (caller : Nat) (role : Role)
    (t : CreateTerms) : World × Outcome :=
  if role ≠ Role.farmer then (w, Outcome.forbidden "only farmers can create requests")
  else if t.acres ≤ 0 ∨ t.amount ≤ 0 ∨ t.timeline ≤ 0 ∨ t.roi < 0 ∨ 100 < t.roi ∨
      t.investorShare < 0 ∨ 100 < t.investorShare then
    (w, Outcome.badRequest "invalid numeric values")
  else
    match w.videos.find? (fun v => v.cid == t.cid && v.farmerWallet == caller) with
    | none => (w, Outcome.notFound "associated video not found")
    | some video =>
      if w.frs.any (fun p =>
          p.2.cid == t.cid &&
            (decide (p.2.status = FRStatus.pending) ||
             decide (p.2.status = FRStatus.partially_funded) ||
             decide (p.2.status = FRStatus.funded))) then
        (w, Outcome.conflict "video already used in an active funding request")
      else
        let d : FundingRequest :=
          { farmerWallet := caller, title := t.title, crop := t.crop,
            acres := t.acres, amount := t.amount, timeline := t.timeline,
            roi := t.roi, investorShare := t.investorShare, cid := video.cid,
            fundedAmount := 0, status := FRStatus.pending,
            investors := [], updates := [] }
        if schemaValidFR d then
          let id := w.nextId
          let w1 := { w with frs := w.frs ++ [(id, frPreSave d)],
                             nextId := w.nextId + 1 }
          let w2 :=
            { w1 with
                notifs := w1.notifs ++
                  [{ recipient := none, kind := NotifKind.newOpportunity, itemId := id }] }
          (w2, Outcome.created id)
        else (w, Outcome.badRequest "schema validation failed")

/-- The store before any funding activity: an arbitrary video collection
(video upload is outside the modelled core) and empty funding collections. -/
def initWorld (videos : List VideoDoc) (clock : Nat) : World :=
  { videos := videos, frs := [], invs := [], txs := [], notifs := [],
    nextId := 0, nextTx := 0, clock := clock }

/-- States reachable by any sequence of the modelled operations, starting
from a store with no funding documents; `tick` lets the wall clock move
between calls. -/
inductive Reachable : World → Prop
  | init (videos : List VideoDoc) (clock : Nat) : Reachable (initWorld videos clock)
  | tick {w : World} (c : Nat) : Reachable w → Reachable { w with clock := c }
  | create {w : World} (caller : Nat) (role : Role) (t : CreateTerms) :
      Reachable w → Reachable (createFundingRequest w caller role t).1
  | invest {w : World} (caller : Nat) (role : Role) (pid : Nat) (a? : Option ℚ) :
      Reachable w → Reachable (invest w caller role pid a?).1
  | progress {w : World} (invId : Nat) (p? : Option Int) (t? : Option String) :
      Reachable w → Reachable (updateProgress w invId p? t?).1
  | put {w : World} (caller reqId : Nat) (t? : Option String) (st? : Option FRStatus) :
      Reachable w → Reachable (putFundingRequest w caller reqId t? st?).1
  | cancel {w : World} (caller reqId : Nat) :
      Reachable w → Reachable (deleteFundingRequest w caller reqId).1

/-! ## Concrete scenarios used by the claim theorems -/

/-- A video owned by farmer 1. -/
def demoVideo : VideoDoc := { cid := "cid1", farmerWallet := 1 }

/-- Valid creation terms requesting 50 units. -/
def demoTerms : CreateTerms :=
  { title := "t", crop := "c", description := "d", acres := 1, amount := 50,
    method := GrowMethod.organic, cid := "cid1", timeline := 6, roi := 10,
    investorShare := 20 }

/-- The world after farmer 1 creates a 50-unit funding request (id 0). -/
def demoW1 : World := (createFundingRequest (initWorld [demoVideo] 0) 1 Role.farmer demoTerms).1

/-- Investor 7 invests 60 into the 50-unit request: the overfunding call. -/
def overfundCall : World × Outcome := invest demoW1 7 Role.investor 0 (some 60)

/-- A farmer update saved on the overfunded request (triggers the pre-save
clamp). -/
def overfundThenSave : World × Outcome :=
  putFundingRequest overfundCall.1 1 0 (some "note") none

/-- Investor 7 invests 30 into the 50-unit request. -/
def partialCall : World × Outcome := invest demoW1 7 Role.investor 0 (some 30)

/-- A funding request already in the `completed` state, fully funded. -/
def completedFR : FundingRequest :=
  { farmerWallet := 1, title := "t", crop := "c", acres := 1, amount := 50,
    timeline := 6, roi := 10, investorShare := 20, cid := "cid1",
    fundedAmount := 50, status := FRStatus.completed,
    investors := [{ investorId := 7, amount := 50, txHash := 0, investmentDate := 0 }],
    updates := [] }

/-- A store holding just the completed request. -/
def wCompleted : World :=
  { videos := [], frs := [(0, completedFR)], invs := [], txs := [], notifs := [],
    nextId := 1, nextTx := 1, clock := 1000 }

/-- Farmer 1 posts a text update on the completed request. -/
def appendOnCompleted : World × Outcome :=
  putFundingRequest wCompleted 1 0 (some "harvest news") none

/-- A funding request already in the `cancelled` state, unfunded. -/
def cancelledFR : FundingRequest :=
  { farmerWallet := 1, title := "t", crop := "c", acres := 1, amount := 50,
    timeline := 6, roi := 10, investorShare := 20, cid := "cid1",
    fundedAmount := 0, status := FRStatus.cancelled, investors := [], updates := [] }

/-- A store holding just the cancelled request. -/
def wCancelled : World :=
  { videos := [], frs := [(0, cancelledFR)], invs := [], txs := [], notifs := [],
    nextId := 1, nextTx := 5, clock := 0 }

/-- Investor 7 invests 10 into the cancelled request. -/
def investOnCancelled : World × Outcome := invest wCancelled 7 Role.investor 0 (some 10)

/-- A fully funded request backed by a single growing investment. -/
def fundedFR : FundingRequest := { completedFR with status := FRStatus.funded }

/-- The single investment of `fundedFR`, at 50% progress. -/
def growingInv : Investment :=
  { investorWallet := 7, projectId := 0, amount := 50, projectTitle := "t",
    farmerWallet := 1, roi := 10, investorShare := 20,
    status := InvStatus.growing, progress := 50, investmentDate := 0,
    txHash := 0, payoutAmount := none, payoutDate := none, payoutTxHash := none,
    payoutNotified := false }

/-- Store: the funded request (id 0) with its growing investment (id 5). -/
def wGrow : World :=
  { videos := [], frs := [(0, fundedFR)], invs := [(5, growingInv)], txs := [],
    notifs := [], nextId := 6, nextTx := 1, clock := 2000 }

/-- Progress of investment 5 is driven to 100: the harvest call. -/
def harvestCall : World × Outcome := updateProgress wGrow 5 (some 100) none

/-- A fresh 100-unit request by farmer 1, target of the double-invest runs. -/
def dupFR : FundingRequest :=
  { farmerWallet := 1, title := "t", crop := "c", acres := 1, amount := 100,
    timeline := 6, roi := 10, investorShare := 20, cid := "cid1",
    fundedAmount := 0, status := FRStatus.pending, investors := [], updates := [] }

/-- Store holding just `dupFR` under id 0. -/
def wDup : World :=
  { videos := [], frs := [(0, dupFR)], invs := [], txs := [], notifs := [],
    nextId := 1, nextTx := 5, clock := 0 }

/-- First of two identical investments by investor 7. -/
def dupFirst : World × Outcome := invest wDup 7 Role.investor 0 (some 10)

/-- Second identical investment, within the 5-second matching window. -/
def dupSecond : World × Outcome := invest dupFirst.1 7 Role.investor 0 (some 10)

/-- The funding request stored after `overfundCall`: overfunded to 60 of 50,
with the status left at `pending` because `findByIdAndUpdate` runs no hook. -/
def overfundedFR : FundingRequest :=
  { farmerWallet := 1, title := "t", crop := "c", acres := 1, amount := 50,
    timeline := 6, roi := 10, investorShare := 20, cid := "cid1",
    fundedAmount := 60, status := FRStatus.pending,
    investors := [{ investorId := 7, amount := 60, txHash := 0, investmentDate := 0 }],
    updates := [] }

/-- An already harvested, already paid-out investment record. -/
def harvestedDemoInv : Investment :=
  { growingInv with
      status := InvStatus.harvested, progress := 100,
      payoutAmount := some 5, payoutDate := some 0, payoutTxHash := some 0,
      payoutNotified := true }

/-- A cancelled investment record. -/
def cancelledDemoInv : Investment :=
  { growingInv with status := InvStatus.cancelled, progress := 20 }

/-- Store holding one harvested (id 3) and one cancelled (id 4) record. -/
def wTerm : World :=
  { videos := [], frs := [], invs := [(3, harvestedDemoInv), (4, cancelledDemoInv)],
    txs := [], notifs := [], nextId := 9, nextTx := 9, clock := 0 }

/-- The funding-amount facts that DO hold of every stored FundingRequest:
the requested amount is at least 1 (schema validator), the funded amount is
nonnegative, and the funded amount never exceeds the sum of the embedded
contributions.  (Equality with the sum, and the bound by the requested
amount, both fail — see the C3 counterexample.) -/
def frOK (d : FundingRequest) : Prop :=
  1 ≤ d.amount ∧ 0 ≤ d.fundedAmount ∧ d.fundedAmount ≤ sumContribs d.investors

/-- `frOK` holds of every funding request in the store. -/
def worldFrOK (w : World) : Prop := ∀ p ∈ w.frs, frOK p.2

/-- The record stored after the harvest transition of the progress route:
progress 100, status `harvested`, payout fields filled from the fresh
correlation id `n` and the clock, `payoutNotified` set. -/
def harvestedOf (inv : Investment) (n clockMs : Nat) : Investment :=
  { inv with
      progress := 100
      status := InvStatus.harvested
      payoutAmount := some (inv.amount * (inv.roi / 100))
      payoutDate := some clockMs
      payoutTxHash := some n
      payoutNotified := true }

/-- The payout ledger entry appended by the harvest transition. -/
def payoutTxOf (inv : Investment) (n clockMs : Nat) : Transaction :=
  { userId := inv.investorWallet, txHash := n, type := TxType.payout,
    amount := inv.amount * (inv.roi / 100), projectId := some inv.projectId,
    date := clockMs }

/-! ## Helper lemmas -/

theorem findDoc_mem {α : Type} {l : List (Nat × α)} {id : Nat} {x : α}
    (h : findDoc l id = some x) : (id, x) ∈ l := by
  unfold findDoc at h
  obtain ⟨p, hp, hpx⟩ := Option.map_eq_some'.mp h
  have hmem := List.mem_of_find?_eq_some hp
  have hid := List.find?_some hp
  have : p.1 = id := by simpa using hid
  cases p
  simp only at this hpx
  subst this
  subst hpx
  exact hmem

theorem mem_setDoc {α : Type} {l : List (Nat × α)} {id : Nat} {v : α}
    {x : Nat × α} (h : x ∈ setDoc l id v) : x = (id, v) ∨ x ∈ l := by
  unfold setDoc at h
  obtain ⟨p, hp, hpx⟩ := List.mem_map.mp h
  by_cases hc : p.1 = id
  · left
    simp [hc] at hpx
    exact hpx.symm
  · right
    simp [hc] at hpx
    subst hpx
    exact hp

theorem findDoc_setDoc {α : Type} {l : List (Nat × α)} {id : Nat} {v : α}
    (h : (findDoc l id).isSome) : findDoc (setDoc l id v) id = some v := by
  induction l with
  | nil => simp [findDoc] at h
  | cons p t ih =>
    by_cases hc : p.1 = id
    · simp [findDoc, setDoc, hc]
    · have ht : (findDoc t id).isSome := by
        simpa [findDoc, List.find?_cons, hc] using h
      simpa [findDoc, setDoc, hc] using ih ht

theorem sumContribs_append (l : List Contribution) (c : Contribution) :
    sumContribs (l ++ [c]) = sumContribs l + c.amount := by
  simp [sumContribs]

theorem frOK_frPreSave {d : FundingRequest} (h : frOK d) : frOK (frPreSave d) := by
  obtain ⟨h1, h2, h3⟩ := h
  unfold frPreSave
  by_cases hc : d.amount < d.fundedAmount
  · have hle : d.amount ≤ sumContribs d.investors := le_trans (le_of_lt hc) h3
    simp only [hc, if_true]
    split
    · exact ⟨h1, le_trans (by norm_num) h1, hle⟩
    · split
      · exact ⟨h1, le_trans (by norm_num) h1, hle⟩
      · exact ⟨h1, le_trans (by norm_num) h1, hle⟩
  · simp only [hc, if_false]
    split
    · exact ⟨h1, h2, h3⟩
    · split
      · exact ⟨h1, h2, h3⟩
      · exact ⟨h1, h2, h3⟩

theorem worldFrOK_setDoc {w : World} {id : Nat} {v : FundingRequest}
    (h : worldFrOK w) (hv : frOK v) :
    ∀ p ∈ setDoc w.frs id v, frOK p.2 := by
  intro p hp
  rcases mem_setDoc hp with rfl | hmem
  · exact hv
  · exact h p hmem

theorem worldFrOK_saveFR {w : World} {id : Nat} {d : FundingRequest}
    (h : worldFrOK w) (hd : frOK d) : worldFrOK (saveFR w id d) := by
  intro p hp
  exact worldFrOK_setDoc h (frOK_frPreSave hd) p hp

theorem frOK_of_findDoc {w : World} {id : Nat} {d : FundingRequest}
    (h : worldFrOK w) (hfind : findDoc w.frs id = some d) : frOK d :=
  h (id, d) (findDoc_mem hfind)

theorem worldFrOK_checkProjectCompletion {w : World} (pid : Nat)
    (h : worldFrOK w) : worldFrOK (checkProjectCompletion w pid) := by
  unfold checkProjectCompletion
  dsimp only
  cases hfd : findDoc w.frs pid with
  | none =>
    simp only [hfd]
    split <;> exact h
  | some fr =>
    simp only [hfd]
    have hfr0 : frOK fr := frOK_of_findDoc h hfd
    have hfr : frOK { fr with status := FRStatus.completed } := hfr0
    split
    · split
      · intro p hp
        exact worldFrOK_setDoc h (frOK_frPreSave hfr) p hp
      · exact h
    · exact h

theorem worldFrOK_appendProjectUpdateAndNotify {w : World} (pid : Nat) (t : String)
    (h : worldFrOK w) : worldFrOK (appendProjectUpdateAndNotify w pid t) := by
  unfold appendProjectUpdateAndNotify
  dsimp only
  cases hfd : findDoc w.frs pid with
  | none => simp only [hfd]; exact h
  | some fr =>
    simp only [hfd]
    intro p hp
    have hfr0 : frOK fr := frOK_of_findDoc h hfd
    have hfr : frOK { fr with updates := fr.updates ++ [{ date := w.clock, text := t }] } := hfr0
    exact worldFrOK_setDoc h (frOK_frPreSave hfr) p hp

theorem worldFrOK_invest {w : World} (caller : Nat) (role : Role) (pid : Nat)
    (a? : Option ℚ) (h : worldFrOK w) :
    worldFrOK (invest w caller role pid a?).1 := by
  unfold invest
  split
  · exact h
  · split
    · exact h
    · rename_i a
      split
      · exact h
      · rename_i hpos
        cases hfd : findDoc w.frs pid with
        | none => simp only [hfd]; exact h
        | some fr =>
          simp only [hfd]
          have hfr : frOK fr := frOK_of_findDoc h hfd
          have hup : frOK
              { fr with
                  fundedAmount := fr.fundedAmount + a
                  investors := fr.investors ++
                    [{ investorId := caller, amount := a, txHash := w.nextTx,
                       investmentDate := w.clock }] } := by
            obtain ⟨h1, h2, h3⟩ := hfr
            refine ⟨h1, ?_, ?_⟩
            · have : (0 : ℚ) < a := lt_of_not_le hpos
              simp only
              linarith
            · simp only [sumContribs_append]
              simpa using add_le_add_right h3 a
          split
          · exact worldFrOK_setDoc h hup
          · split
            · exact worldFrOK_setDoc h hup
            · exact worldFrOK_setDoc h hup

theorem worldFrOK_of_frs_eq {w w' : World} (h : worldFrOK w)
    (he : w'.frs = w.frs) : worldFrOK w' := by
  intro p hp
  exact h p (he ▸ hp)

theorem progressStep_frs (w : World) (invId : Nat) (inv1 : Investment) :
    (progressStep w invId inv1).2.1.frs = w.frs := by
  unfold progressStep
  split
  · dsimp only
    split <;> rfl
  · split
    · rfl
    · split <;> rfl

theorem progressStep_invs (w : World) (invId : Nat) (inv1 : Investment) :
    (progressStep w invId inv1).2.1.invs = w.invs := by
  unfold progressStep
  split
  · dsimp only
    split <;> rfl
  · split
    · rfl
    · split <;> rfl

theorem worldFrOK_updateProgress {w : World} (invId : Nat) (p? : Option Int)
    (t? : Option String) (h : worldFrOK w) :
    worldFrOK (updateProgress w invId p? t?).1 := by
  unfold updateProgress
  cases p? with
  | none => exact h
  | some p =>
    dsimp only
    by_cases hp : p < 0 ∨ 100 < p
    · rw [if_pos hp]; exact h
    · rw [if_neg hp]
      cases hfd : findDoc w.invs invId with
      | none => simp only [hfd]; exact h
      | some inv =>
        simp only [hfd]
        by_cases hterm : (inv.status = InvStatus.harvested ∨ inv.status = InvStatus.cancelled) ∧
            (p < 100 ∨ inv.status = InvStatus.cancelled)
        · rw [if_pos hterm]; exact h
        · rw [if_neg hterm]
          dsimp only
          -- `frs` is only touched through `appendProjectUpdateAndNotify` and
          -- `checkProjectCompletion`; `progressStep` and the record save
          -- never write `frs`.
          have hA : worldFrOK (progressStep w invId { inv with progress := p }).2.1 :=
            worldFrOK_of_frs_eq h (progressStep_frs w invId _)
          cases t? with
          | none =>
            split
            · exact worldFrOK_checkProjectCompletion _ (fun q hq => hA q hq)
            · exact fun q hq => hA q hq
          | some t =>
            have hB : worldFrOK
                (if t ≠ "" then
                  appendProjectUpdateAndNotify
                    (progressStep w invId { inv with progress := p }).2.1
                    (progressStep w invId { inv with progress := p }).1.projectId t
                else (progressStep w invId { inv with progress := p }).2.1) := by
              split
              · exact worldFrOK_appendProjectUpdateAndNotify _ t hA
              · exact hA
            split
            · exact worldFrOK_checkProjectCompletion _ (fun q hq => hB q hq)
            · exact fun q hq => hB q hq

theorem worldFrOK_putFundingRequest {w : World} (caller reqId : Nat)
    (t? : Option String) (st? : Option FRStatus) (h : worldFrOK w) :
    worldFrOK (putFundingRequest w caller reqId t? st?).1 := by
  unfold putFundingRequest
  dsimp only
  split
  · exact h
  · cases hfd : findDoc w.frs reqId with
    | none => simp only [hfd]; exact h
    | some fr =>
      -- The text push only appends to `updates`, the fan-out only appends
      -- to `notifs`, and the status assignment only touches `status`:
      -- every branch either leaves `frs` alone or stores a record whose
      -- frOK-relevant fields are those of `fr`.
      simp only [hfd]
      repeat' split
      all_goals try exact h
      all_goals
        intro q hq
        rcases mem_setDoc hq with rfl | hmem
        · apply frOK_frPreSave
          have hfr : frOK fr := frOK_of_findDoc h hfd
          exact hfr
        · exact h q hmem

theorem worldFrOK_deleteFundingRequest {w : World} (caller reqId : Nat)
    (h : worldFrOK w) :
    worldFrOK (deleteFundingRequest w caller reqId).1 := by
  unfold deleteFundingRequest
  cases hfd : findDoc w.frs reqId with
  | none => simp only [hfd]; exact h
  | some fr =>
    simp only [hfd]
    split
    · exact h
    · split
      · exact h
      · intro p hp
        exact h p (List.mem_of_mem_filter hp)

theorem worldFrOK_createFundingRequest {w : World} (caller : Nat) (role : Role)
    (t : CreateTerms) (h : worldFrOK w) :
    worldFrOK (createFundingRequest w caller role t).1 := by
  unfold createFundingRequest
  split
  · exact h
  · split
    · exact h
    · split
      · exact h
      · rename_i video hvid
        split
        · exact h
        · dsimp only
          split
          · rename_i hvalid
            intro p hp
            rcases List.mem_append.mp hp with hmem | hnew
            · exact h p hmem
            · have hd : frOK
                  { farmerWallet := caller, title := t.title, crop := t.crop,
                    acres := t.acres, amount := t.amount, timeline := t.timeline,
                    roi := t.roi, investorShare := t.investorShare, cid := video.cid,
                    fundedAmount := 0, status := FRStatus.pending,
                    investors := [], updates := [] } := by
                refine ⟨hvalid.1, le_refl 0, ?_⟩
                simp [sumContribs]
              simp only [List.mem_singleton] at hnew
              subst hnew
              exact frOK_frPreSave hd
          · exact h

theorem checkProjectCompletion_txs (w : World) (pid : Nat) :
    (checkProjectCompletion w pid).txs = w.txs := by
  unfold checkProjectCompletion
  dsimp only
  repeat' split
  all_goals rfl

theorem checkProjectCompletion_invs (w : World) (pid : Nat) :
    (checkProjectCompletion w pid).invs = w.invs := by
  unfold checkProjectCompletion
  dsimp only
  repeat' split
  all_goals rfl

theorem investment_progress_eta (inv : Investment) (hp : inv.progress = 100) :
    ({ inv with progress := 100 } : Investment) = inv := by
  cases inv
  simp_all

/-- Characterisation of the harvest call: driving a non-terminal,
not-yet-notified record to progress 100 (with no note) pays out once and
ends in the project-completion check. -/
theorem updateProgress_harvest_eq (w : World) (invId : Nat) (inv : Investment)
    (hfind : findDoc w.invs invId = some inv)
    (hst : inv.status = InvStatus.active ∨ inv.status = InvStatus.growing)
    (hpn : inv.payoutNotified = false) :
    updateProgress w invId (some 100) none =
      (checkProjectCompletion
        { w with
            invs := setDoc w.invs invId (harvestedOf inv w.nextTx w.clock)
            txs := w.txs ++ [payoutTxOf inv w.nextTx w.clock]
            notifs := w.notifs ++
              [{ recipient := some inv.investorWallet,
                 kind := NotifKind.payoutToInvestor, itemId := invId },
               { recipient := some inv.farmerWallet,
                 kind := NotifKind.payoutProcessed, itemId := invId }]
            nextTx := w.nextTx + 1 }
        inv.projectId,
       Outcome.ok) := by
  have hns : inv.status ≠ InvStatus.harvested ∧ inv.status ≠ InvStatus.cancelled := by
    rcases hst with hs | hs <;> simp [hs]
  unfold updateProgress
  dsimp only
  rw [if_neg (by norm_num : ¬((100 : Int) < 0 ∨ 100 < (100 : Int)))]
  simp only [hfind]
  rw [if_neg (by simp [hns.1, hns.2] :
    ¬((inv.status = InvStatus.harvested ∨ inv.status = InvStatus.cancelled) ∧
      ((100 : Int) < 100 ∨ inv.status = InvStatus.cancelled)))]
  unfold progressStep
  rw [if_pos (by exact ⟨by norm_num, hns.1⟩ :
    (100 : Int) ≤ ({ inv with progress := 100 } : Investment).progress ∧
      ({ inv with progress := 100 } : Investment).status ≠ InvStatus.harvested)]
  dsimp only
  rw [if_pos hpn]
  dsimp only
  rw [if_pos ⟨rfl, rfl⟩]
  rfl

/-- Characterisation of resubmitting progress 100 on an already harvested
record (with no note): accepted, and only the record itself is rewritten
with an unchanged value. -/
theorem updateProgress_resubmit_eq (w : World) (invId : Nat) (inv : Investment)
    (hfind : findDoc w.invs invId = some inv)
    (hst : inv.status = InvStatus.harvested)
    (hp : inv.progress = 100) :
    updateProgress w invId (some 100) none =
      ({ w with invs := setDoc w.invs invId inv }, Outcome.ok) := by
  unfold updateProgress
  dsimp only
  rw [if_neg (by norm_num : ¬((100 : Int) < 0 ∨ 100 < (100 : Int)))]
  simp only [hfind]
  rw [if_neg (by simp [hst] :
    ¬((inv.status = InvStatus.harvested ∨ inv.status = InvStatus.cancelled) ∧
      ((100 : Int) < 100 ∨ inv.status = InvStatus.cancelled)))]
  unfold progressStep
  rw [if_neg (by simp [hst] :
    ¬((100 : Int) ≤ ({ inv with progress := 100 } : Investment).progress ∧
      ({ inv with progress := 100 } : Investment).status ≠ InvStatus.harvested))]
  rw [if_neg (by simp [hst] :
    ¬((0 : Int) < ({ inv with progress := 100 } : Investment).progress ∧
      ({ inv with progress := 100 } : Investment).status = InvStatus.active))]
  rw [if_neg (by simp :
    ¬(({ inv with progress := 100 } : Investment).progress = 0 ∧
      ({ inv with progress := 100 } : Investment).status ≠ InvStatus.active ∧
      ({ inv with progress := 100 } : Investment).status ≠ InvStatus.harvested ∧
      ({ inv with progress := 100 } : Investment).status ≠ InvStatus.cancelled))]
  dsimp only
  rw [if_neg (by simp : ¬(false = true ∧
    ({ inv with progress := 100 } : Investment).status = InvStatus.harvested))]
  rw [investment_progress_eta inv hp]

/-- The funding-amount facts of `frOK` hold in every reachable state. -/
theorem worldFrOK_reachable {w : World} (h : Reachable w) : worldFrOK w := by
  induction h with
  | init videos clock => intro p hp; simp [initWorld] at hp
  | tick c _ ih => exact fun p hp => ih p hp
  | create caller role t _ ih => exact worldFrOK_createFundingRequest caller role t ih
  | invest caller role pid a? _ ih => exact worldFrOK_invest caller role pid a? ih
  | progress invId p? t? _ ih => exact worldFrOK_updateProgress invId p? t? ih
  | put caller reqId t? st? _ ih => exact worldFrOK_putFundingRequest caller reqId t? st? ih
  | cancel caller reqId _ ih => exact worldFrOK_deleteFundingRequest caller reqId ih

/-! ## Claim theorems -/

/-- C1: the spec says an Invest whose amount would push `fundedAmount` past
`requestedAmount` fails with Overfunding and leaves the request unchanged.
The code has no such check: investing 60 into a fresh 50-unit request
returns 201, sets `fundedAmount = 60 > 50 = amount`, and appends the
contribution.  (The model's pre-save hook would later CLAMP, not reject.) -/
theorem C1_overfunding_accepted :
    overfundCall.2 = Outcome.created 1 ∧
    (findDoc overfundCall.1.frs 0).map FundingRequest.fundedAmount = some 60 ∧
    (findDoc overfundCall.1.frs 0).map FundingRequest.amount = some 50 ∧
    (findDoc overfundCall.1.frs 0).map (fun d => d.investors.length) = some 1 := by
  with_unfolding_all decide

/-- C4: the route comment assumes the pre-save hook recomputes `status`
after the `findByIdAndUpdate`, but mongoose runs no save hook there:
after a successful 30-unit investment the stored status is still `pending`
although `0 < fundedAmount < requestedAmount`. -/
theorem C4_status_stale_after_invest :
    partialCall.2 = Outcome.created 1 ∧
    (findDoc partialCall.1.frs 0).map FundingRequest.fundedAmount = some 30 ∧
    (findDoc partialCall.1.frs 0).map FundingRequest.status = some FRStatus.pending := by
  with_unfolding_all decide

/-- C5: the PUT route's guard rejects explicit status changes out of a
terminal state, but any save of the document runs the pre-save hook, which
recomputes `status` from `fundedAmount`: a farmer text update on a
`completed`, fully funded request silently moves the status to `funded`. -/
theorem C5_completed_status_overwritten_on_save :
    completedFR.status = FRStatus.completed ∧
    appendOnCompleted.2 = Outcome.ok ∧
    (findDoc appendOnCompleted.1.frs 0).map FundingRequest.status =
      some FRStatus.funded := by
  with_unfolding_all decide

/-- C7: after the last investment of a project is harvested, the progress
route sets the FundingRequest status to `completed` and saves — but the
pre-save hook recomputes the status from `fundedAmount`, so the persisted
status is `funded`, not `completed` (the completion notification proves the
completion branch did run). -/
theorem C7_completion_clobbered_by_presave_hook :
    harvestCall.2 = Outcome.ok ∧
    (findDoc harvestCall.1.invs 5).map Investment.status = some InvStatus.harvested ∧
    ({ recipient := some 1, kind := NotifKind.projectCompleted, itemId := 0 } :
      Notification) ∈ harvestCall.1.notifs ∧
    (findDoc harvestCall.1.frs 0).map FundingRequest.status = some FRStatus.funded := by
  with_unfolding_all decide

/-- C10: two investments of the same amount by the same investor within the
5-second matching window: the second call appends a contribution with fresh
correlation id 6, but the `Array.find` lookup returns the FIRST matching
entry, so the second InvestmentRecord is created with correlation id 5 (the
first call's); the ledger insert then violates the unique `txHash` index
and the call fails with 500, leaving a single ledger entry. -/
theorem C10_duplicate_correlation_id :
    dupFirst.2 = Outcome.created 1 ∧
    dupSecond.2 = Outcome.serverError "duplicate transaction hash" ∧
    (findDoc dupSecond.1.frs 0).map (fun d => d.investors.map Contribution.txHash) =
      some [5, 6] ∧
    (findDoc dupSecond.1.invs 2).map Investment.txHash = some 5 ∧
    dupSecond.1.txs.map Transaction.txHash = [5] := by
  with_unfolding_all decide

/-- C2 counterexample: investing into a `cancelled` request does NOT fail
with InvalidState — it returns 201, increments `fundedAmount`, and creates
the InvestmentRecord and ledger entry. -/
theorem C2_counterexample :
    cancelledFR.status = FRStatus.cancelled ∧
    investOnCancelled.2 = Outcome.created 1 ∧
    (findDoc investOnCancelled.1.frs 0).map FundingRequest.fundedAmount = some 10 ∧
    investOnCancelled.1.invs.length = 1 ∧
    investOnCancelled.1.txs.length = 1 := by
  with_unfolding_all decide

/-- C2 (amended): the Invest route performs no project-status check at all:
against a `completed` or `cancelled` project with a positive amount, the
`findByIdAndUpdate` increment and contribution append always happen, and
the call ends in 201 or (only after the mutation) a 500 — never an
InvalidState rejection. -/
theorem C2_invest_ignores_terminal_status (w : World) (caller pid : Nat) (a : ℚ)
    (fr : FundingRequest) (hfind : findDoc w.frs pid = some fr)
    (hterm : fr.status = FRStatus.completed ∨ fr.status = FRStatus.cancelled)
    (ha : 0 < a) :
    findDoc (invest w caller Role.investor pid (some a)).1.frs pid =
      some { fr with
               fundedAmount := fr.fundedAmount + a
               investors := fr.investors ++
                 [{ investorId := caller, amount := a, txHash := w.nextTx,
                    investmentDate := w.clock }] } ∧
    ((∃ id, (invest w caller Role.investor pid (some a)).2 = Outcome.created id) ∨
     (∃ m, (invest w caller Role.investor pid (some a)).2 = Outcome.serverError m)) := by
  unfold invest
  rw [if_neg (by simp : ¬(Role.investor ≠ Role.investor))]
  dsimp only
  rw [if_neg (not_le.mpr ha)]
  simp only [hfind]
  repeat' split
  all_goals refine ⟨findDoc_setDoc (by simp [hfind]), ?_⟩
  all_goals first
    | exact Or.inl ⟨_, rfl⟩
    | exact Or.inr ⟨_, rfl⟩

/-- C2 witness: the amended statement evaluated on the concrete cancelled
request. -/
theorem C2_witness :
    findDoc investOnCancelled.1.frs 0 =
      some { cancelledFR with
               fundedAmount := cancelledFR.fundedAmount + 10
               investors := cancelledFR.investors ++
                 [{ investorId := 7, amount := 10, txHash := 5, investmentDate := 0 }] } ∧
    ((∃ id, investOnCancelled.2 = Outcome.created id) ∨
     (∃ m, investOnCancelled.2 = Outcome.serverError m)) :=
  C2_invest_ignores_terminal_status wCancelled 7 0 10 cancelledFR
    (by with_unfolding_all decide) (Or.inr (by decide)) (by norm_num)

/-- C3 counterexample: a reachable state (create a 50-unit request, invest
60) violates `fundedAmount ≤ requestedAmount`; after the next document save
the clamp fires and `fundedAmount = 50` no longer equals the contribution
sum 60 — so both conjuncts of the claimed invariant fail on reachable
states. -/
theorem C3_counterexample :
    Reachable overfundCall.1 ∧
    (findDoc overfundCall.1.frs 0).map FundingRequest.fundedAmount = some 60 ∧
    (findDoc overfundCall.1.frs 0).map FundingRequest.amount = some 50 ∧
    Reachable overfundThenSave.1 ∧
    (findDoc overfundThenSave.1.frs 0).map FundingRequest.fundedAmount = some 50 ∧
    (findDoc overfundThenSave.1.frs 0).map (fun d => sumContribs d.investors) =
      some 60 := by
  refine ⟨?_, by with_unfolding_all decide, by with_unfolding_all decide, ?_,
    by with_unfolding_all decide, by with_unfolding_all decide⟩
  · exact Reachable.invest 7 Role.investor 0 (some 60)
      (Reachable.create 1 Role.farmer demoTerms (Reachable.init [demoVideo] 0))
  · exact Reachable.put 1 0 (some "note") none
      (Reachable.invest 7 Role.investor 0 (some 60)
        (Reachable.create 1 Role.farmer demoTerms (Reachable.init [demoVideo] 0)))

/-- C3 (amended): in every reachable state, every stored FundingRequest
satisfies `0 ≤ fundedAmount` and `fundedAmount ≤ Σ contributions.amount`;
the claimed upper bound by `requestedAmount` and the claimed equality with
the contribution sum do not hold (see the counterexample). -/
theorem C3_funded_amount_invariant (w : World) (h : Reachable w) :
    ∀ p ∈ w.frs, 0 ≤ p.2.fundedAmount ∧
      p.2.fundedAmount ≤ sumContribs p.2.investors := by
  intro p hp
  obtain ⟨-, h2, h3⟩ := worldFrOK_reachable h p hp
  exact ⟨h2, h3⟩

/-- C3 witness: the invariant evaluated on the concrete overfunded record of
the reachable counterexample state. -/
theorem C3_witness :
    0 ≤ overfundedFR.fundedAmount ∧
    overfundedFR.fundedAmount ≤ sumContribs overfundedFR.investors :=
  C3_funded_amount_invariant overfundCall.1
    (Reachable.invest 7 Role.investor 0 (some 60)
      (Reachable.create 1 Role.farmer demoTerms (Reachable.init [demoVideo] 0)))
    (0, overfundedFR) (by with_unfolding_all decide)

theorem investmentPreSave_projectId (w : World) (inv : Investment) (b : Bool) :
    (investmentPreSave w inv b).projectId = inv.projectId := by
  unfold investmentPreSave
  repeat' split
  all_goals rfl

/-- C6 counterexample: a concrete execution where the Invest call fails (the
ledger insert hits the unique txHash index, 500) AFTER the funding-request
mutation: `fundedAmount` went from 10 to 20 and a second InvestmentRecord
exists, but the ledger still holds a single "investment" entry — partial
mutation is visible, contradicting the claimed all-or-nothing guarantee. -/
theorem C6_counterexample :
    dupSecond.2 = Outcome.serverError "duplicate transaction hash" ∧
    (findDoc dupFirst.1.frs 0).map FundingRequest.fundedAmount = some 10 ∧
    (findDoc dupSecond.1.frs 0).map FundingRequest.fundedAmount = some 20 ∧
    dupSecond.1.invs.length = 2 ∧
    dupSecond.1.txs.length = 1 := by
  with_unfolding_all decide

/-- C6 (amended): failures BEFORE the `findByIdAndUpdate` (role, validation,
missing project) leave the store untouched, and a 201 creates the
InvestmentRecord and its matching "investment" ledger entry — but a failure
after the update (see the counterexample) persists the increment without
the ledger entry, so the operation is not atomic. -/
theorem C6_invest_mutation_boundary (w : World) (caller : Nat) (role : Role)
    (pid : Nat) (a? : Option ℚ) :
    (∀ m, (invest w caller role pid a?).2 = Outcome.forbidden m →
      (invest w caller role pid a?).1 = w) ∧
    (∀ m, (invest w caller role pid a?).2 = Outcome.badRequest m →
      (invest w caller role pid a?).1 = w) ∧
    (∀ m, (invest w caller role pid a?).2 = Outcome.notFound m →
      (invest w caller role pid a?).1 = w) ∧
    (∀ id, (invest w caller role pid a?).2 = Outcome.created id →
      ∃ inv tx, (invest w caller role pid a?).1.invs = w.invs ++ [(w.nextId, inv)] ∧
        (invest w caller role pid a?).1.txs = w.txs ++ [tx] ∧
        tx.txHash = inv.txHash ∧ tx.type = TxType.investment ∧
        tx.userId = caller ∧ tx.amount = inv.amount ∧ inv.projectId = pid ∧
        tx.projectId = some pid) := by
  unfold invest
  dsimp only
  repeat' split
  all_goals refine ⟨fun m hm => ?_, fun m hm => ?_, fun m hm => ?_, fun id hid => ?_⟩
  all_goals first
    | rfl
    | (exact absurd hm (by simp))
    | (refine ⟨_, _, rfl, rfl, rfl, rfl, rfl, rfl,
        investmentPreSave_projectId _ _ _, rfl⟩)
    | (exact absurd hid (by simp))

/-- C6 witness: the amended statement's success case evaluated on the
concrete 30-unit investment. -/
theorem C6_witness :
    ∃ inv tx, partialCall.1.invs = demoW1.invs ++ [(demoW1.nextId, inv)] ∧
      partialCall.1.txs = demoW1.txs ++ [tx] ∧
      tx.txHash = inv.txHash ∧ tx.type = TxType.investment ∧
      tx.userId = 7 ∧ tx.amount = inv.amount ∧ inv.projectId = 0 ∧
      tx.projectId = some 0 :=
  (C6_invest_mutation_boundary demoW1 7 Role.investor 0 (some 30)).2.2.2 1
    (by with_unfolding_all decide)

/-- C8: driving a non-terminal, not-yet-paid record to progress 100 twice
(no note) appends exactly one payout ledger entry, computes
`payoutAmount = amount * (roi / 100)` once, leaves `payoutNotified = true`
after both calls, and the second call succeeds without touching the ledger
or the record. -/
theorem C8_payout_idempotent (w : World) (invId : Nat) (inv : Investment)
    (hfind : findDoc w.invs invId = some inv)
    (hst : inv.status = InvStatus.active ∨ inv.status = InvStatus.growing)
    (hpn : inv.payoutNotified = false) :
    (updateProgress w invId (some 100) none).2 = Outcome.ok ∧
    (updateProgress w invId (some 100) none).1.txs =
      w.txs ++ [payoutTxOf inv w.nextTx w.clock] ∧
    findDoc (updateProgress w invId (some 100) none).1.invs invId =
      some (harvestedOf inv w.nextTx w.clock) ∧
    (updateProgress (updateProgress w invId (some 100) none).1 invId
      (some 100) none).2 = Outcome.ok ∧
    (updateProgress (updateProgress w invId (some 100) none).1 invId
      (some 100) none).1.txs = w.txs ++ [payoutTxOf inv w.nextTx w.clock] ∧
    findDoc (updateProgress (updateProgress w invId (some 100) none).1 invId
      (some 100) none).1.invs invId = some (harvestedOf inv w.nextTx w.clock) := by
  have h1 := updateProgress_harvest_eq w invId inv hfind hst hpn
  have hW1invs : (updateProgress w invId (some 100) none).1.invs =
      setDoc w.invs invId (harvestedOf inv w.nextTx w.clock) := by
    rw [h1]
    exact checkProjectCompletion_invs _ _
  have hW1txs : (updateProgress w invId (some 100) none).1.txs =
      w.txs ++ [payoutTxOf inv w.nextTx w.clock] := by
    rw [h1]
    exact checkProjectCompletion_txs _ _
  have hfind1 : findDoc (updateProgress w invId (some 100) none).1.invs invId =
      some (harvestedOf inv w.nextTx w.clock) := by
    rw [hW1invs]
    exact findDoc_setDoc (by simp [hfind])
  have h2 := updateProgress_resubmit_eq (updateProgress w invId (some 100) none).1
    invId (harvestedOf inv w.nextTx w.clock) hfind1 rfl rfl
  refine ⟨by rw [h1], hW1txs, hfind1, by rw [h2], ?_, ?_⟩
  · rw [h2]
    exact hW1txs
  · rw [h2]
    exact findDoc_setDoc (by rw [hfind1]; simp)

/-- C8 witness: the idempotent payout evaluated on the concrete growing
investment of the funded demo project. -/
theorem C8_witness :
    (updateProgress wGrow 5 (some 100) none).2 = Outcome.ok ∧
    (updateProgress wGrow 5 (some 100) none).1.txs =
      wGrow.txs ++ [payoutTxOf growingInv wGrow.nextTx wGrow.clock] ∧
    findDoc (updateProgress wGrow 5 (some 100) none).1.invs 5 =
      some (harvestedOf growingInv wGrow.nextTx wGrow.clock) ∧
    (updateProgress (updateProgress wGrow 5 (some 100) none).1 5
      (some 100) none).2 = Outcome.ok ∧
    (updateProgress (updateProgress wGrow 5 (some 100) none).1 5
      (some 100) none).1.txs =
      wGrow.txs ++ [payoutTxOf growingInv wGrow.nextTx wGrow.clock] ∧
    findDoc (updateProgress (updateProgress wGrow 5 (some 100) none).1 5
      (some 100) none).1.invs 5 =
      some (harvestedOf growingInv wGrow.nextTx wGrow.clock) :=
  C8_payout_idempotent wGrow 5 growingInv (by with_unfolding_all decide)
    (Or.inr (by decide)) (by decide)

/-- C9: progress updates outside [0,100] (or non-numeric) are rejected with
a validation error before any lookup; updates on a `cancelled` record, and
updates below 100 on a `harvested` record, are rejected with the
terminal-state error and leave everything unchanged; resubmitting exactly
100 on a harvested record is accepted and is a no-op on the record, the
ledger and the funding requests. -/
theorem C9_progress_guards (w : World) (invId : Nat) (p : Int) (t? : Option String) :
    (updateProgress w invId none t? = (w, Outcome.badRequest "invalid progress value")) ∧
    ((p < 0 ∨ 100 < p) →
      updateProgress w invId (some p) t? = (w, Outcome.badRequest "invalid progress value")) ∧
    (∀ inv, findDoc w.invs invId = some inv → ¬(p < 0 ∨ 100 < p) →
      inv.status = InvStatus.cancelled →
      updateProgress w invId (some p) t? = (w, Outcome.badRequest "terminal state")) ∧
    (∀ inv, findDoc w.invs invId = some inv → ¬(p < 0 ∨ 100 < p) → p < 100 →
      inv.status = InvStatus.harvested →
      updateProgress w invId (some p) t? = (w, Outcome.badRequest "terminal state")) ∧
    (∀ inv, findDoc w.invs invId = some inv → inv.status = InvStatus.harvested →
      inv.progress = 100 →
      updateProgress w invId (some 100) none =
        ({ w with invs := setDoc w.invs invId inv }, Outcome.ok) ∧
      findDoc (updateProgress w invId (some 100) none).1.invs invId = some inv ∧
      (updateProgress w invId (some 100) none).1.txs = w.txs ∧
      (updateProgress w invId (some 100) none).1.frs = w.frs) := by
  refine ⟨rfl, ?_, ?_, ?_, ?_⟩
  · intro hp
    unfold updateProgress
    dsimp only
    rw [if_pos hp]
  · intro inv hfind hp hc
    unfold updateProgress
    dsimp only
    rw [if_neg hp]
    simp only [hfind]
    rw [if_pos ⟨Or.inr hc, Or.inr hc⟩]
  · intro inv hfind hp hlt hh
    unfold updateProgress
    dsimp only
    rw [if_neg hp]
    simp only [hfind]
    rw [if_pos ⟨Or.inl hh, Or.inl hlt⟩]
  · intro inv hfind hh hp100
    have h2 := updateProgress_resubmit_eq w invId inv hfind hh hp100
    refine ⟨h2, ?_, by rw [h2], by rw [h2]⟩
    rw [h2]
    exact findDoc_setDoc (by simp [hfind])

/-- C9 witness: the guards evaluated on a concrete store holding one
harvested and one cancelled record. -/
theorem C9_witness :
    updateProgress wTerm 3 (some 101) none =
      (wTerm, Outcome.badRequest "invalid progress value") ∧
    updateProgress wTerm 4 (some 50) none =
      (wTerm, Outcome.badRequest "terminal state") ∧
    updateProgress wTerm 3 (some 40) none =
      (wTerm, Outcome.badRequest "terminal state") ∧
    updateProgress wTerm 3 (some 100) none =
      ({ wTerm with invs := setDoc wTerm.invs 3 harvestedDemoInv }, Outcome.ok) :=
  ⟨(C9_progress_guards wTerm 3 101 none).2.1 (by norm_num),
   (C9_progress_guards wTerm 4 50 none).2.2.1 cancelledDemoInv
     (by with_unfolding_all decide) (by norm_num) (by decide),
   (C9_progress_guards wTerm 3 40 none).2.2.2.1 harvestedDemoInv
     (by with_unfolding_all decide) (by norm_num) (by norm_num) (by decide),
   ((C9_progress_guards wTerm 3 100 none).2.2.2.2 harvestedDemoInv
     (by with_unfolding_all decide) (by decide) (by decide)).1⟩

end PestVid
